import Mathlib

/-!
# Verification of the Wellfound job-automation core

Shallow embedding of the repository's Extractor (`src/scraper.py`,
`WellfoundScraper._parse_job_detail_page`, `_extract_keywords_from_text`,
`_generate_job_id`), Matcher (`src/matcher.py`, `JobMatcher`) and the
persistence dedup logic (`src/database.py`, `JobDatabase.save_jobs`).

Modelling conventions:
* Python `str` values are Lean `String`s; operations the Python code performs
  character-wise (`.lower()`, slicing, `.replace('\n',' ')`, `.strip()`,
  `.split('•')`, substring tests with `in`) are modelled over the code-point
  list `String.data`.  `str.lower()` is modelled by ASCII `Char.toLower`
  (the repository's literals and vocabulary are ASCII).
* Python dicts holding a job record are association lists `JobDict`;
  `dict.get(k, d)` / `dict[k] = v` are `getStr`/`getStrList`/`dictSet` with
  first-match lookup, mirroring Python's unique-key dicts.
* The BeautifulSoup document is abstracted by `Doc`, whose fields are exactly
  the query results `_parse_job_detail_page` asks of the soup; the empty
  markup string parses to a document on which every query fails (`emptyDoc`).
* `hashlib.md5(...).hexdigest()` is an external library function; the id
  derivation is parameterized by an arbitrary digest function
  `digest : String → String`.
* Python mutation of a job dict in place is modelled by returning the
  updated dict; `JobMatcher.filter_jobs` returns both the updated input
  list (the state of the caller's list objects after the call) and the
  filtered, sorted result list.
* The normalization `int((score / max_possible) * 100)` is a float
  computation truncated toward zero; for the nonnegative values arising
  here it is modelled as exact integer floor division (double-precision
  rounding can differ by one in rare cases; no theorem below depends on
  the exact normalized value beyond its bounds).
-/

/-- Python `str.lower()` (ASCII model), applied code-point-wise. -/
def pyLower (s : String) : String := String.mk (s.data.map Char.toLower)

/-- Python slicing `s[:n]` by code points. -/
def pyTake (s : String) (n : Nat) : String := String.mk (s.data.take n)

/-- Python `s.replace('\n', ' ')`: the pattern and replacement are single
characters, so the replacement is a code-point map. -/
def pyReplaceNlSpace (s : String) : String :=
  String.mk (s.data.map (fun c => if c == '\n' then ' ' else c))

/-- Whitespace stripped by Python `str.strip()` (ASCII model). -/
def pySpaceChar (c : Char) : Bool :=
  c == ' ' || c == '\t' || c == '\n' || c == '\r' || c == '\x0b' || c == '\x0c'

/-- Python `str.strip()`: drop whitespace from both ends. -/
def pyStrip (s : String) : String :=
  String.mk (((s.data.dropWhile pySpaceChar).reverse.dropWhile pySpaceChar).reverse)

/-- Python `str.split(sep)` for a one-character separator. -/
def splitOnChar (sep : Char) : List Char → List (List Char)
  | [] => [[]]
  | c :: rest =>
    if c == sep then [] :: splitOnChar sep rest
    else
      match splitOnChar sep rest with
      | [] => [[c]]
      | g :: gs => (c :: g) :: gs

/-- Python `sep.join(parts)` for `sep = " "`. -/
def joinSpace (parts : List String) : String := String.intercalate " " parts

/-- `needle` occurs as a contiguous sublist of the scanned list. -/
def containsSub (needle : List Char) : List Char → Bool
  | [] => needle.isPrefixOf []
  | c :: rest => needle.isPrefixOf (c :: rest) || containsSub needle rest

/-- Python's substring test `needle in hay`. -/
def strContains (hay needle : String) : Bool := containsSub needle.data hay.data

/-- Python membership `c in s` for a single character. -/
def charIn (s : String) (c : Char) : Bool := s.data.any (fun d => d == c)

/-! ## Job dictionaries (Python dicts carrying a job record) -/

/-- A value stored in a job dict. -/
inductive Val where
  | str (s : String)
  | strList (l : List String)
  | int (n : Int)
  | bool (b : Bool)
deriving DecidableEq

/-- A Python dict holding a job record, as an association list with unique
keys (first match wins, as in a Python dict). -/
abbrev JobDict := List (String × Val)

/-- Key lookup. -/
def dictFind : JobDict → String → Option Val
  | [], _ => none
  | (k', v) :: rest, k => if k' = k then some v else dictFind rest k

/-- Python `d[k] = v`: overwrite in place, or append a new key. -/
def dictSet : JobDict → String → Val → JobDict
  | [], k, v => [(k, v)]
  | (k', v') :: rest, k, v =>
    if k' = k then (k, v) :: rest else (k', v') :: dictSet rest k v

/-- Python `d.get(k, default)` for string-valued keys.  A key absent from the
dict yields the default; the dicts built below always carry strings at the
keys read this way. -/
def getStr (d : JobDict) (k dflt : String) : String :=
  match dictFind d k with
  | some (Val.str s) => s
  | _ => dflt

/-- Python `d.get(k, default)` for list-of-string-valued keys. -/
def getStrList (d : JobDict) (k : String) (dflt : List String) : List String :=
  match dictFind d k with
  | some (Val.strList l) => l
  | _ => dflt

/-- Python `d.get(k)` (no default) for string-valued keys: `None` when absent. -/
def getStrOpt (d : JobDict) (k : String) : Option String :=
  match dictFind d k with
  | some (Val.str s) => some s
  | _ => none

/-- Python `d.get(k, default)` for integer-valued keys. -/
def getInt (d : JobDict) (k : String) (dflt : Int) : Int :=
  match dictFind d k with
  | some (Val.int n) => n
  | _ => dflt

/-! ## The Posting record (`WellfoundScraper._parse_job_detail_page` result) -/

/-- The normalized posting record, with the fields of the dict returned at
the end of `_parse_job_detail_page` (scraper.py lines 231-244). -/
structure Posting where
  id : String
  title : String
  company : String
  location : String
  stipend : String
  equity : String
  skills : List String
  ui_skills : List String
  short_description : String
  full_description : String
  apply_url : String
  match_score : Int
deriving DecidableEq

/-- The Python dict literal returned by `_parse_job_detail_page`, with its
keys in source order.  Note the description is stored under the keys
`"short_description"` and `"full_description"`; there is no `"description"`
key in this dict. -/
def postingToDict (p : Posting) : JobDict :=
  [("id", Val.str p.id),
   ("title", Val.str p.title),
   ("company", Val.str p.company),
   ("location", Val.str p.location),
   ("stipend", Val.str p.stipend),
   ("equity", Val.str p.equity),
   ("skills", Val.strList p.skills),
   ("ui_skills", Val.strList p.ui_skills),
   ("short_description", Val.str p.short_description),
   ("full_description", Val.str p.full_description),
   ("apply_url", Val.str p.apply_url),
   ("match_score", Val.int p.match_score)]

/-! ## Keyword extraction (`_extract_keywords_from_text`) -/

/-- `\w` of Python's `re` module (ASCII model): letters, digits, underscore. -/
def isWordChar (c : Char) : Bool := c.isAlphanum || c == '_'

/-- Word-character test on an optional character; a position outside the
text counts as a non-word character, as for `\b` at the ends of a string. -/
def isWordOpt : Option Char → Bool
  | none => false
  | some c => isWordChar c

/-- One candidate match of the regex `\b re.escape(kw) \b` starting at the
current position: the literal `kw` must be a prefix of the remaining text
`t`, with a `\b` word/non-word transition against the preceding character
`prev` and against the character following the matched literal. -/
def bMatchAt (kw : List Char) (prev : Option Char) (t : List Char) : Bool :=
  kw.isPrefixOf t
    && (isWordOpt prev != isWordOpt kw.head?)
    && (isWordOpt kw.getLast? != isWordOpt (t.drop kw.length).head?)

/-- `re.search(r'\b' + re.escape(kw) + r'\b', text)`: scan every position. -/
def bSearch (kw : List Char) (prev : Option Char) : List Char → Bool
  | [] => bMatchAt kw prev []
  | c :: rest => bMatchAt kw prev (c :: rest) || bSearch kw (some c) rest

/-- The fixed technology vocabulary of `_extract_keywords_from_text`,
in source order. -/
def tech_keywords : List String :=
  ["Python", "Django", "Flask", "FastAPI", "React", "Next.js", "Vue",
   "Node.js", "TypeScript", "JavaScript", "AWS", "Docker", "Kubernetes",
   "SQL", "PostgreSQL", "MongoDB", "Redis", "Go", "Rust", "C++",
   "Machine Learning", "AI", "LLM", "DevOps", "CI/CD"]

/-- `WellfoundScraper._extract_keywords_from_text`: keep every vocabulary
term whose lowercased escaped literal is found by `re.search` between `\b`
boundaries in the lowercased text. -/
def extract_keywords_from_text (text : String) : List String :=
  tech_keywords.filter (fun kw => bSearch (pyLower kw).data none (pyLower text).data)

/-- Modelled from the spec's words, for comparison with the regex the code
uses: a term "matches only at word boundaries" when it occurs as a
contiguous occurrence that is neither immediately preceded nor immediately
followed by a word character (ends of the text count as non-word). -/
def natMatchAt (kw : List Char) (prev : Option Char) (t : List Char) : Bool :=
  kw.isPrefixOf t
    && !(isWordOpt prev)
    && !(isWordOpt (t.drop kw.length).head?)

/-- Scan for a spec-worded word-boundary occurrence at any position. -/
def natSearch (kw : List Char) (prev : Option Char) : List Char → Bool
  | [] => natMatchAt kw prev []
  | c :: rest => natMatchAt kw prev (c :: rest) || natSearch kw (some c) rest

/-- The spec's notion: `kw` occurs in `text` case-insensitively, delimited
by word boundaries on both sides. -/
def occursAtWordBoundary (kw text : String) : Bool :=
  natSearch (pyLower kw).data none (pyLower text).data

/-! ## The detail-page extractor (`_parse_job_detail_page`) -/

/-- The BeautifulSoup queries `_parse_job_detail_page` performs on the parsed
markup, abstracted as a record: each field is the result the soup returns
for the corresponding `find`/`find_all` call, with `get_text(strip=True)`
already applied where the source applies it. -/
structure Doc where
  /-- `soup.find('h1')`, with its stripped text when the tag exists. -/
  h1_text : Option String
  /-- Whether `soup.find('a', href=re.compile(r'^/company/'))` finds a tag. -/
  company_link_present : Bool
  /-- `soup.find('span', class_=re.compile(r'font-semibold'))`, stripped text.
  As in the source, this query is made against the whole document, not the
  company link's subtree. -/
  semibold_span_text : Option String
  /-- `soup.find('ul', class_=re.compile(r'flex'))`, when found: the stripped
  texts of its `li` children, in document order. -/
  header_ul_items : Option (List String)
  /-- `soup.find(id='job-description')`, when found:
  `get_text(separator='\n', strip=True)` of the container. -/
  job_description_text : Option String
  /-- Texts of `soup.find_all('div', class_=re.compile(r'rounded-3xl.*bg-accent-persian-100'))`. -/
  skill_pill_texts : List String
  /-- `soup.find('a', href=re.compile(r'/location/'))`, stripped text. -/
  location_link_text : Option String

/-- The view of the empty markup string `""`: BeautifulSoup parses it to an
empty document on which every query returns nothing. -/
def emptyDoc : Doc :=
  { h1_text := none
    company_link_present := false
    semibold_span_text := none
    header_ul_items := none
    job_description_text := none
    skill_pill_texts := []
    location_link_text := none }

/-- The stipend/equity loop over the header list items: the first item
containing a currency symbol is the compensation line; a `•` splits it into
stipend and equity, otherwise the whole line is the stipend; then break. -/
def stipendLoop : List String → String × String
  | [] => ("Not disclosed", "None")
  | t :: rest =>
    if charIn t '$' || charIn t '€' || charIn t '£' then
      if charIn t '•' then
        match (splitOnChar '•' t.data).map (fun l => pyStrip (String.mk l)) with
        | [] => ("Not disclosed", "None")
        | [p0] => (p0, "None")
        | p0 :: p1 :: _ => (p0, p1)
      else (t, "None")
    else stipendLoop rest

/-- Keep the first occurrence of each element.  CPython's `list(set(...))`
iterates the set in an unspecified order; the order is modelled as
first-occurrence order (no theorem below depends on it). -/
def dedupKeepFirst : List String → List String
  | [] => []
  | x :: rest =>
    if (dedupKeepFirst rest).contains x then dedupKeepFirst rest
    else x :: (dedupKeepFirst rest).filter (fun y => y ≠ x)

/-- `WellfoundScraper._generate_job_id`: lowercase `title + "_" + company`,
digest it, keep the first 16 hex characters.  `hashlib.md5(...).hexdigest()`
is a library function external to the repository, so the digest is a
parameter. -/
def generate_job_id (digest : String → String) (title company : String) : String :=
  pyTake (digest (pyLower (title ++ "_" ++ company))) 16

/-- `WellfoundScraper._parse_job_detail_page`, field rule by field rule in
source order, over the abstracted document queries. -/
def parse_job_detail_page (digest : String → String) (doc : Doc) (url : String) :
    Posting :=
  let title := doc.h1_text.getD "Unknown Title"
  let company :=
    if doc.company_link_present then
      match doc.semibold_span_text with
      | some s => s
      | none => "Unknown"
    else "Unknown"
  let se :=
    match doc.header_ul_items with
    | some items => stipendLoop items
    | none => ("Not disclosed", "None")
  let full_description :=
    match doc.job_description_text with
    | some t => t
    | none => ""
  let short_description :=
    match doc.job_description_text with
    | some t => pyReplaceNlSpace (pyTake t 200) ++ "..."
    | none => ""
  let ui_skills := doc.skill_pill_texts
  let extracted_keywords := extract_keywords_from_text full_description
  let all_skills := dedupKeepFirst (ui_skills ++ extracted_keywords)
  let location := doc.location_link_text.getD "Remote"
  { id := generate_job_id digest title company
    title := title
    company := company
    location := location
    stipend := se.1
    equity := se.2
    skills := all_skills
    ui_skills := ui_skills
    short_description := short_description
    full_description := full_description
    apply_url := url
    match_score := 0 }

/-! ## The Matcher (`JobMatcher`, matcher.py) -/

/-- The user profile consumed by `JobMatcher.__init__` via
`user_profile.get(...)`: absent list entries default to `[]` (modelled as
plain lists), an absent `min_match_score` defaults to 50 at construction. -/
structure UserProfile where
  skills : List String
  keywords : List String
  locations : List String
  min_match_score : Option Int

/-- The matcher state set up by `JobMatcher.__init__`. -/
structure JobMatcher where
  skills : List String
  keywords : List String
  locations : List String
  min_score : Int

/-- `JobMatcher.__init__`: lowercase the three profile lists, default the
threshold to 50. -/
def JobMatcher.init (p : UserProfile) : JobMatcher :=
  { skills := p.skills.map pyLower
    keywords := p.keywords.map pyLower
    locations := p.locations.map pyLower
    min_score := p.min_match_score.getD 50 }

/-- The `job_text` haystack of `calculate_match_score` (matcher.py lines
36-40): note the middle component reads the key `"description"`. -/
def jobTextOf (d : JobDict) : String :=
  pyLower (getStr d "title" "" ++ " " ++ getStr d "description" "" ++ " " ++
    joinSpace (getStrList d "skills" []))

/-- `job.get('location', '').lower()` (matcher.py line 57). -/
def jobLocationOf (d : JobDict) : String := pyLower (getStr d "location" "")

/-- The skill loop (matcher.py lines 43-47): +10 and append per profile
skill occurring as a substring of the haystack. -/
def skillLoop (t : String) : List String → Int → List String → Int × List String
  | [], score, matched => (score, matched)
  | s :: rest, score, matched =>
    if strContains t s then skillLoop t rest (score + 10) (matched ++ [s])
    else skillLoop t rest score matched

/-- The keyword loop (matcher.py lines 50-54): +5 and append per profile
keyword occurring as a substring of the haystack. -/
def keywordLoop (t : String) : List String → Int → List String → Int × List String
  | [], score, matched => (score, matched)
  | k :: rest, score, matched =>
    if strContains t k then keywordLoop t rest (score + 5) (matched ++ [k])
    else keywordLoop t rest score matched

/-- The location loop (matcher.py lines 59-63): +15 and stop at the first
profile location that is a substring of the job location (`break`). -/
def locLoop (jl : String) : List String → Int → Bool → Int × Bool
  | [], score, lm => (score, lm)
  | l :: rest, score, lm =>
    if strContains jl l then (score + 15, true)
    else locLoop jl rest score lm

/-- `max_possible` (matcher.py line 67). -/
def maxPossible (m : JobMatcher) : Int :=
  10 * (m.skills.length : Int) + 5 * (m.keywords.length : Int) + 15

/-- The raw point total after the three loops, before normalization. -/
def rawScoreOf (m : JobMatcher) (d : JobDict) : Int :=
  (locLoop (jobLocationOf d) m.locations
    (keywordLoop (jobTextOf d) m.keywords
      (skillLoop (jobTextOf d) m.skills 0 []).1 []).1 false).1

/-- The `matched_skills` list the skill loop accumulates. -/
def matchedSkillsOf (m : JobMatcher) (d : JobDict) : List String :=
  (skillLoop (jobTextOf d) m.skills 0 []).2

/-- The `matched_keywords` list the keyword loop accumulates. -/
def matchedKeywordsOf (m : JobMatcher) (d : JobDict) : List String :=
  (keywordLoop (jobTextOf d) m.keywords 0 []).2

/-- The `location_match` flag the location loop sets. -/
def locationMatchOf (m : JobMatcher) (d : JobDict) : Bool :=
  (locLoop (jobLocationOf d) m.locations 0 false).2

/-- `JobMatcher.calculate_match_score` (matcher.py lines 23-76): run the
three loops over the haystack, normalize when `max_possible > 0`, store the
three match annotations on the job dict, return the score together with the
updated dict (the in-place mutation of the Python job). -/
def calculate_match_score (m : JobMatcher) (job : JobDict) : Int × JobDict :=
  let t := jobTextOf job
  let r1 := skillLoop t m.skills 0 []
  let r2 := keywordLoop t m.keywords r1.1 []
  let r3 := locLoop (jobLocationOf job) m.locations r2.1 false
  let score :=
    if maxPossible m > 0 then min 100 ((r3.1 * 100) / maxPossible m) else r3.1
  let j1 := dictSet job "matched_skills" (Val.strList r1.2)
  let j2 := dictSet j1 "matched_keywords" (Val.strList r2.2)
  let j3 := dictSet j2 "location_match" (Val.bool r3.2)
  (score, j3)

/-- The full in-place update `filter_jobs` applies to one job: score it
(which stores the three match annotations) and store `match_score`. -/
def annotateJob (m : JobMatcher) (job : JobDict) : JobDict :=
  dictSet (calculate_match_score m job).2 "match_score"
    (Val.int (calculate_match_score m job).1)

/-- The recorded `x['match_score']` a sorted job is keyed by. -/
def recordedScore (d : JobDict) : Int := getInt d "match_score" 0

/-- Stable descending insertion: place `x` after every element whose key is
at least `x`'s, reproducing Python's stable `sort(key=..., reverse=True)`. -/
def insertDesc (x : JobDict) : List JobDict → List JobDict
  | [] => [x]
  | y :: rest =>
    if recordedScore x ≤ recordedScore y then y :: insertDesc x rest
    else x :: y :: rest

/-- Stable sort by recorded score, highest first. -/
def sortDesc : List JobDict → List JobDict
  | [] => []
  | x :: rest => insertDesc x (sortDesc rest)

/-- The loop body of `JobMatcher.filter_jobs` (matcher.py lines 90-95):
first component is the input list after its elements were mutated in place,
second is `scored_jobs` in loop order (before sorting). -/
def filterJobsLoop (m : JobMatcher) : List JobDict → List JobDict × List JobDict
  | [] => ([], [])
  | job :: rest =>
    let score := (calculate_match_score m job).1
    let job' := annotateJob m job
    let r := filterJobsLoop m rest
    (job' :: r.1, (if m.min_score ≤ score then [job'] else []) ++ r.2)

/-- `JobMatcher.filter_jobs` (matcher.py lines 78-100): score and annotate
every job, keep those meeting the threshold, sort them by score descending
(stable).  First component: the caller's list after the in-place mutations;
second: the returned filtered, sorted list. -/
def filter_jobs (m : JobMatcher) (jobs : List JobDict) :
    List JobDict × List JobDict :=
  let r := filterJobsLoop m jobs
  (r.1, sortDesc r.2)

/-! ## Persistence dedup (`JobDatabase.save_jobs`) -/

/-- One row of the `jobs` table, restricted to the columns `save_jobs`
inserts.  The JSON serialization of the two list columns is modelled by
storing the lists themselves. -/
structure DbRow where
  job_id : Option String
  title : Option String
  company : Option String
  location : Option String
  stipend : String
  equity : String
  description : String
  short_description : String
  skills : List String
  ui_skills : List String
  apply_url : Option String
  match_score : Int
deriving DecidableEq

/-- The parameter tuple of the INSERT in `save_jobs` (database.py lines
61-80), mapping scraper keys to DB columns; `job.get('id')` with no default
is `None` when absent. -/
def rowOfJob (job : JobDict) : DbRow :=
  { job_id := getStrOpt job "id"
    title := getStrOpt job "title"
    company := getStrOpt job "company"
    location := getStrOpt job "location"
    stipend := getStr job "stipend" "Not disclosed"
    equity := getStr job "equity" "None"
    description := getStr job "full_description" ""
    short_description := getStr job "short_description" ""
    skills := getStrList job "skills" []
    ui_skills := getStrList job "ui_skills" []
    apply_url := getStrOpt job "apply_url"
    match_score := getInt job "match_score" 0 }

/-- Whether the INSERT succeeds: the UNIQUE constraint on `job_id` rejects a
duplicate non-NULL id (SQLite lets multiple NULLs through), and the NOT NULL
constraints on `title` and `apply_url` reject absent values.  A rejected
insert raises `sqlite3.IntegrityError`, which `save_jobs` silently skips. -/
def insertOk (db : List DbRow) (r : DbRow) : Bool :=
  (match r.job_id with
   | some s => !(db.any (fun r0 => r0.job_id == some s))
   | none => true)
  && r.title.isSome && r.apply_url.isSome

/-- `JobDatabase.save_jobs` (database.py lines 49-90) over a list-of-rows
model of the table: insert each job in order, skipping constraint
violations; return the table and the count of newly inserted rows. -/
def save_jobs (db : List DbRow) (jobs : List JobDict) : List DbRow × Nat :=
  jobs.foldl
    (fun acc job =>
      let r := rowOfJob job
      if insertOk acc.1 r then (acc.1 ++ [r], acc.2 + 1) else acc)
    (db, 0)

/-! ## Concrete sample inputs used in evaluations and witnesses -/

/-- A stand-in digest function for concrete evaluations (the id derivation
is digest-generic). -/
def identityDigest : String → String := fun s => s

/-- A profile whose only skill is `Go`. -/
def goProfile : UserProfile :=
  { skills := ["Go"], keywords := [], locations := [], min_match_score := none }

/-- A posting whose haystack contains `mongodb` but no standalone `go`. -/
def mongoPosting : Posting :=
  { id := "j1", title := "MongoDB Engineer", company := "Acme",
    location := "Remote", stipend := "Not disclosed", equity := "None",
    skills := ["MongoDB"], ui_skills := ["MongoDB"],
    short_description := "", full_description := "We use MongoDB.",
    apply_url := "https://example.com/j1", match_score := 0 }

/-- A profile with two locations that both match a `Remote` posting. -/
def remoteTwiceProfile : UserProfile :=
  { skills := [], keywords := [], locations := ["Remote", "remote"],
    min_match_score := none }

/-- A profile whose only skill is `Python`. -/
def pythonProfile : UserProfile :=
  { skills := ["Python"], keywords := [], locations := [],
    min_match_score := none }

/-- A posting whose `full_description` contains `python` while its title and
skills do not. -/
def pythonDescPosting : Posting :=
  { id := "j2", title := "Senior Dev", company := "Acme",
    location := "Berlin", stipend := "Not disclosed", equity := "None",
    skills := [], ui_skills := [],
    short_description := "python experience...",
    full_description := "python experience",
    apply_url := "https://example.com/j2", match_score := 0 }

/-- A document whose description container holds the short text `hi`. -/
def descDoc : Doc := { emptyDoc with job_description_text := some "hi" }

/-! ## Helper lemmas -/

theorem skillLoop_eq (t : String) (skills : List String) (s : Int)
    (acc : List String) :
    skillLoop t skills s acc =
      (s + 10 * ((skills.filter (fun sk => strContains t sk)).length : Int),
       acc ++ skills.filter (fun sk => strContains t sk)) := by
  induction skills generalizing s acc with
  | nil => simp [skillLoop]
  | cons x rest ih =>
    by_cases h : strContains t x
    · simp only [skillLoop, h, if_true, ih, List.filter_cons, Prod.mk.injEq]
      refine ⟨by simp only [List.length_cons]; push_cast; ring, by simp⟩
    · simp [skillLoop, h, ih, List.filter_cons]

theorem keywordLoop_eq (t : String) (keys : List String) (s : Int)
    (acc : List String) :
    keywordLoop t keys s acc =
      (s + 5 * ((keys.filter (fun k => strContains t k)).length : Int),
       acc ++ keys.filter (fun k => strContains t k)) := by
  induction keys generalizing s acc with
  | nil => simp [keywordLoop]
  | cons x rest ih =>
    by_cases h : strContains t x
    · simp only [keywordLoop, h, if_true, ih, List.filter_cons, Prod.mk.injEq]
      refine ⟨by simp only [List.length_cons]; push_cast; ring, by simp⟩
    · simp [keywordLoop, h, ih, List.filter_cons]

theorem locLoop_eq (jl : String) (locs : List String) (s : Int) (b : Bool) :
    locLoop jl locs s b =
      if locs.any (fun l => strContains jl l) then (s + 15, true) else (s, b) := by
  induction locs generalizing s b with
  | nil => simp [locLoop]
  | cons x rest ih =>
    by_cases h : strContains jl x
    · simp [locLoop, h]
    · simp [locLoop, h, ih]

theorem matchedSkillsOf_eq (m : JobMatcher) (d : JobDict) :
    matchedSkillsOf m d =
      m.skills.filter (fun sk => strContains (jobTextOf d) sk) := by
  simp [matchedSkillsOf, skillLoop_eq]

theorem matchedKeywordsOf_eq (m : JobMatcher) (d : JobDict) :
    matchedKeywordsOf m d =
      m.keywords.filter (fun k => strContains (jobTextOf d) k) := by
  simp [matchedKeywordsOf, keywordLoop_eq]

theorem rawScoreOf_eq (m : JobMatcher) (d : JobDict) :
    rawScoreOf m d =
      10 * ((matchedSkillsOf m d).length : Int) +
      5 * ((matchedKeywordsOf m d).length : Int) +
      (if m.locations.any (fun l => strContains (jobLocationOf d) l)
        then (15 : Int) else 0) := by
  rw [rawScoreOf, skillLoop_eq, keywordLoop_eq, locLoop_eq,
    matchedSkillsOf_eq, matchedKeywordsOf_eq]
  by_cases h : m.locations.any (fun l => strContains (jobLocationOf d) l) <;>
    simp [h]

theorem rawScoreOf_nonneg (m : JobMatcher) (d : JobDict) : 0 ≤ rawScoreOf m d := by
  rw [rawScoreOf_eq]
  have h1 : (0 : Int) ≤ 10 * ((matchedSkillsOf m d).length : Int) := by positivity
  have h2 : (0 : Int) ≤ 5 * ((matchedKeywordsOf m d).length : Int) := by positivity
  by_cases h : m.locations.any (fun l => strContains (jobLocationOf d) l) <;>
    simp [h] <;> omega

theorem maxPossible_ge (m : JobMatcher) : 15 ≤ maxPossible m := by
  have h1 : (0 : Int) ≤ 10 * (m.skills.length : Int) := by positivity
  have h2 : (0 : Int) ≤ 5 * (m.keywords.length : Int) := by positivity
  unfold maxPossible
  omega

theorem calc_fst_eq (m : JobMatcher) (d : JobDict) :
    (calculate_match_score m d).1 =
      min 100 ((rawScoreOf m d * 100) / maxPossible m) := by
  have hpos : maxPossible m > 0 := lt_of_lt_of_le (by norm_num) (maxPossible_ge m)
  show (if maxPossible m > 0
    then min 100 ((rawScoreOf m d * 100) / maxPossible m)
    else rawScoreOf m d) = _
  rw [if_pos hpos]

theorem dictFind_dictSet_self (d : JobDict) (k : String) (v : Val) :
    dictFind (dictSet d k v) k = some v := by
  induction d with
  | nil => simp [dictSet, dictFind]
  | cons kv rest ih =>
    by_cases h : kv.1 = k
    · simp [dictSet, dictFind, h]
    · simp [dictSet, dictFind, h, ih]

theorem dictFind_dictSet_ne (d : JobDict) (k k' : String) (v : Val)
    (h : k ≠ k') : dictFind (dictSet d k v) k' = dictFind d k' := by
  induction d with
  | nil => simp [dictSet, dictFind, h]
  | cons kv rest ih =>
    by_cases hk : kv.1 = k
    · simp [dictSet, dictFind, hk, h]
    · simp [dictSet, dictFind, hk, ih]

theorem calc_snd_matched_skills (m : JobMatcher) (d : JobDict) :
    dictFind (calculate_match_score m d).2 "matched_skills" =
      some (Val.strList (matchedSkillsOf m d)) := by
  show dictFind (dictSet (dictSet (dictSet d "matched_skills" _)
    "matched_keywords" _) "location_match" _) "matched_skills" = _
  rw [dictFind_dictSet_ne _ _ _ _ (by decide),
    dictFind_dictSet_ne _ _ _ _ (by decide), dictFind_dictSet_self]
  rfl

theorem calc_snd_matched_keywords (m : JobMatcher) (d : JobDict) :
    dictFind (calculate_match_score m d).2 "matched_keywords" =
      some (Val.strList ((keywordLoop (jobTextOf d) m.keywords
        (skillLoop (jobTextOf d) m.skills 0 []).1 []).2)) := by
  show dictFind (dictSet (dictSet (dictSet d "matched_skills" _)
    "matched_keywords" _) "location_match" _) "matched_keywords" = _
  rw [dictFind_dictSet_ne _ _ _ _ (by decide), dictFind_dictSet_self]

theorem calc_snd_location_match (m : JobMatcher) (d : JobDict) :
    dictFind (calculate_match_score m d).2 "location_match" =
      some (Val.bool ((locLoop (jobLocationOf d) m.locations
        (keywordLoop (jobTextOf d) m.keywords
          (skillLoop (jobTextOf d) m.skills 0 []).1 []).1 false).2)) := by
  show dictFind (dictSet (dictSet (dictSet d "matched_skills" _)
    "matched_keywords" _) "location_match" _) "location_match" = _
  rw [dictFind_dictSet_self]

theorem filterJobsLoop_fst (m : JobMatcher) (jobs : List JobDict) :
    (filterJobsLoop m jobs).1 = jobs.map (annotateJob m) := by
  induction jobs with
  | nil => rfl
  | cons j rest ih => simp [filterJobsLoop, ih]

theorem annotate_match_score (m : JobMatcher) (job : JobDict) :
    dictFind (annotateJob m job) "match_score" =
      some (Val.int (calculate_match_score m job).1) := by
  unfold annotateJob
  exact dictFind_dictSet_self _ _ _

theorem annotate_matched_skills (m : JobMatcher) (job : JobDict) :
    dictFind (annotateJob m job) "matched_skills" =
      some (Val.strList (matchedSkillsOf m job)) := by
  unfold annotateJob
  rw [dictFind_dictSet_ne _ _ _ _ (by decide)]
  exact calc_snd_matched_skills m job

theorem annotate_matched_keywords (m : JobMatcher) (job : JobDict) :
    ∃ l, dictFind (annotateJob m job) "matched_keywords" =
      some (Val.strList l) := by
  unfold annotateJob
  rw [dictFind_dictSet_ne _ _ _ _ (by decide)]
  exact ⟨_, calc_snd_matched_keywords m job⟩

theorem annotate_location_match (m : JobMatcher) (job : JobDict) :
    ∃ b, dictFind (annotateJob m job) "location_match" =
      some (Val.bool b) := by
  unfold annotateJob
  rw [dictFind_dictSet_ne _ _ _ _ (by decide)]
  exact ⟨_, calc_snd_location_match m job⟩

theorem recordedScore_annotate (m : JobMatcher) (job : JobDict) :
    recordedScore (annotateJob m job) = (calculate_match_score m job).1 := by
  unfold recordedScore getInt
  rw [annotate_match_score]

theorem filterJobsLoop_snd_mem (m : JobMatcher) (jobs : List JobDict) :
    ∀ d ∈ (filterJobsLoop m jobs).2, ∃ job ∈ jobs,
      d = annotateJob m job ∧
      m.min_score ≤ (calculate_match_score m job).1 := by
  induction jobs with
  | nil => simp [filterJobsLoop]
  | cons j rest ih =>
    intro d hd
    simp only [filterJobsLoop] at hd
    rcases List.mem_append.mp hd with h | h
    · by_cases hs : m.min_score ≤ (calculate_match_score m j).1
      · rw [if_pos hs] at h
        simp only [List.mem_singleton] at h
        exact ⟨j, List.mem_cons_self j rest, h, hs⟩
      · rw [if_neg hs] at h
        exact absurd h (List.not_mem_nil d)
    · obtain ⟨job, hjob, hrest⟩ := ih d h
      exact ⟨job, List.mem_cons_of_mem _ hjob, hrest⟩

theorem mem_insertDesc (x y : JobDict) (l : List JobDict) :
    y ∈ insertDesc x l ↔ y = x ∨ y ∈ l := by
  induction l with
  | nil => simp [insertDesc]
  | cons z rest ih =>
    by_cases h : recordedScore x ≤ recordedScore z
    · simp [insertDesc, h, ih]
      tauto
    · simp [insertDesc, h]

theorem mem_sortDesc (x : JobDict) (l : List JobDict) :
    x ∈ sortDesc l ↔ x ∈ l := by
  induction l with
  | nil => simp [sortDesc]
  | cons z rest ih =>
    simp [sortDesc, mem_insertDesc, ih]

/-! ## Claim theorems (Matcher) -/

/-- C4: for every posting and every profile, `calculate_match_score` returns
an integer score with `0 <= score <= 100`. -/
theorem calculate_match_score_bounds (prof : UserProfile) (p : Posting) :
    0 ≤ (calculate_match_score (JobMatcher.init prof) (postingToDict p)).1 ∧
    (calculate_match_score (JobMatcher.init prof) (postingToDict p)).1 ≤ 100 := by
  set m := JobMatcher.init prof
  rw [calc_fst_eq]
  constructor
  · exact le_min (by norm_num)
      (Int.ediv_nonneg
        (mul_nonneg (rawScoreOf_nonneg m (postingToDict p)) (by norm_num))
        (le_of_lt (lt_of_lt_of_le (by norm_num) (maxPossible_ge m))))
  · exact min_le_left _ _

/-- C6: every profile skill that occurs as a plain substring of the haystack
is awarded 10 raw points and recorded in `matched_skills`; the raw total is
10 per matched skill plus 5 per matched keyword plus the location bonus. -/
theorem skill_substring_award (m : JobMatcher) (d : JobDict) (skill : String)
    (hmem : skill ∈ m.skills)
    (hsub : strContains (jobTextOf d) skill = true) :
    skill ∈ matchedSkillsOf m d ∧
    dictFind (calculate_match_score m d).2 "matched_skills" =
      some (Val.strList (matchedSkillsOf m d)) ∧
    rawScoreOf m d =
      10 * ((matchedSkillsOf m d).length : Int) +
      5 * ((matchedKeywordsOf m d).length : Int) +
      (if m.locations.any (fun l => strContains (jobLocationOf d) l)
        then (15 : Int) else 0) := by
  refine ⟨?_, calc_snd_matched_skills m d, rawScoreOf_eq m d⟩
  rw [matchedSkillsOf_eq]
  exact List.mem_filter.mpr ⟨hmem, hsub⟩

/-- C7: the location loop stops at the first matching profile location, so
the location bonus is 15 when any profile location is a substring of the
posting's lowercased location and 0 otherwise; in particular a profile all
of whose locations match still contributes exactly 15 raw points. -/
theorem location_bonus_once (m : JobMatcher) (d : JobDict) :
    locLoop (jobLocationOf d) m.locations 0 false =
      (if m.locations.any (fun l => strContains (jobLocationOf d) l)
        then ((15 : Int), true) else (0, false)) ∧
    rawScoreOf m d =
      10 * ((matchedSkillsOf m d).length : Int) +
      5 * ((matchedKeywordsOf m d).length : Int) +
      (if m.locations.any (fun l => strContains (jobLocationOf d) l)
        then (15 : Int) else 0) ∧
    (m.locations ≠ [] →
      (∀ l ∈ m.locations, strContains (jobLocationOf d) l = true) →
      (locLoop (jobLocationOf d) m.locations 0 false).1 = 15) := by
  refine ⟨?_, rawScoreOf_eq m d, ?_⟩
  · rw [locLoop_eq]
    by_cases h : m.locations.any (fun l => strContains (jobLocationOf d) l) <;>
      simp [h]
  · intro hne hall
    rw [locLoop_eq]
    have hany : m.locations.any (fun l => strContains (jobLocationOf d) l) = true := by
      match hm : m.locations with
      | [] => exact absurd hm hne
      | l :: rest =>
        simp only [List.any_cons, Bool.or_eq_true]
        exact Or.inl (hall l (by rw [hm]; exact List.mem_cons_self l rest))
    simp [hany]

/-- C8: `max_possible` is at least 15 for every profile (even one with no
skills and no keywords), so the `max_possible > 0` normalization branch is
always taken and the score is never computed by a division by zero. -/
theorem max_possible_never_zero (m : JobMatcher) (d : JobDict) :
    15 ≤ maxPossible m ∧ 0 < maxPossible m ∧
    (calculate_match_score m d).1 =
      min 100 ((rawScoreOf m d * 100) / maxPossible m) := by
  have h := maxPossible_ge m
  exact ⟨h, lt_of_lt_of_le (by norm_num) h, calc_fst_eq m d⟩

/-- Witness for the C6 theorem: profile skill `go` against a haystack
containing `mongodb` is matched. -/
theorem skill_substring_award_witness :
    strContains (jobTextOf (postingToDict mongoPosting)) "go" = true ∧
    "go" ∈ matchedSkillsOf (JobMatcher.init goProfile)
      (postingToDict mongoPosting) :=
  ⟨by decide,
   (skill_substring_award (JobMatcher.init goProfile)
     (postingToDict mongoPosting) "go" (by decide) (by decide)).1⟩

/-- Witness for the C7 theorem: both locations of `remoteTwiceProfile` match
the posting's location, and the loop still awards exactly 15 points. -/
theorem location_bonus_once_witness :
    (locLoop (jobLocationOf (postingToDict mongoPosting))
      (JobMatcher.init remoteTwiceProfile).locations 0 false).1 = 15 :=
  (location_bonus_once (JobMatcher.init remoteTwiceProfile)
    (postingToDict mongoPosting)).2.2 (by decide) (by decide)

/-- C1: the scraper's posting dict carries the description under
`"full_description"`, but the matcher's haystack reads the key
`"description"` (`job.get('description', '')`), which a scraper posting does
not carry; for every scraper posting the haystack therefore consists of
title, two spaces, and the joined skills, with the full description absent.
At the concrete posting whose description alone contains `python`, the
profile skill `python` goes unmatched and the score is 0, while a haystack
built from title, full_description and skills — the claim's formula — would
match it. -/
theorem haystack_drops_full_description :
    (∀ p : Posting, jobTextOf (postingToDict p) =
      pyLower (p.title ++ " " ++ "" ++ " " ++ joinSpace p.skills)) ∧
    jobTextOf (postingToDict pythonDescPosting) = "senior dev  " ∧
    pythonDescPosting.full_description = "python experience" ∧
    strContains (jobTextOf (postingToDict pythonDescPosting)) "python" = false ∧
    strContains
      (pyLower (pythonDescPosting.title ++ " " ++
        pythonDescPosting.full_description ++ " " ++
        joinSpace pythonDescPosting.skills)) "python" = true ∧
    (calculate_match_score (JobMatcher.init pythonProfile)
      (postingToDict pythonDescPosting)).1 = 0 ∧
    matchedSkillsOf (JobMatcher.init pythonProfile)
      (postingToDict pythonDescPosting) = [] :=
  ⟨fun _ => rfl, by decide, rfl, by decide, by decide, by decide, by decide⟩

/-- C10: `filter_jobs` scores and annotates every job of its input list in
place — after the call the input list is exactly the annotated list, and
every element carries `match_score`, `matched_skills`, `matched_keywords`
and `location_match` — including jobs whose score falls below the threshold:
those are annotated too, but excluded from the returned list, whose members
all carry a recorded score at or above the threshold. -/
theorem filter_jobs_annotates_all (m : JobMatcher) (jobs : List JobDict) :
    (filter_jobs m jobs).1 = jobs.map (annotateJob m) ∧
    (∀ job ∈ jobs,
      dictFind (annotateJob m job) "match_score" =
        some (Val.int (calculate_match_score m job).1) ∧
      dictFind (annotateJob m job) "matched_skills" =
        some (Val.strList (matchedSkillsOf m job)) ∧
      (∃ l, dictFind (annotateJob m job) "matched_keywords" =
        some (Val.strList l)) ∧
      (∃ b, dictFind (annotateJob m job) "location_match" =
        some (Val.bool b))) ∧
    (∀ d ∈ (filter_jobs m jobs).2, m.min_score ≤ recordedScore d) ∧
    (∀ job ∈ jobs, (calculate_match_score m job).1 < m.min_score →
      annotateJob m job ∉ (filter_jobs m jobs).2) := by
  have hsnd : (filter_jobs m jobs).2 = sortDesc (filterJobsLoop m jobs).2 := rfl
  refine ⟨filterJobsLoop_fst m jobs, ?_, ?_, ?_⟩
  · intro job _
    exact ⟨annotate_match_score m job, annotate_matched_skills m job,
      annotate_matched_keywords m job, annotate_location_match m job⟩
  · intro d hd
    rw [hsnd] at hd
    obtain ⟨job, _, rfl, hs⟩ :=
      filterJobsLoop_snd_mem m jobs d ((mem_sortDesc d _).mp hd)
    rw [recordedScore_annotate]
    exact hs
  · intro job _ hlt hmem
    rw [hsnd] at hmem
    obtain ⟨job', _, heq, hs⟩ :=
      filterJobsLoop_snd_mem m jobs _ ((mem_sortDesc _ _).mp hmem)
    have : (calculate_match_score m job).1 = (calculate_match_score m job').1 := by
      rw [← recordedScore_annotate m job, ← recordedScore_annotate m job', ← heq]
    omega

/-- Witness for the C10 theorem: a job scoring 0 against the default
threshold 50 is annotated with its score yet excluded from the result. -/
theorem filter_jobs_annotates_all_witness :
    dictFind (annotateJob (JobMatcher.init pythonProfile)
        (postingToDict pythonDescPosting)) "match_score" =
      some (Val.int (calculate_match_score (JobMatcher.init pythonProfile)
        (postingToDict pythonDescPosting)).1) ∧
    annotateJob (JobMatcher.init pythonProfile)
        (postingToDict pythonDescPosting) ∉
      (filter_jobs (JobMatcher.init pythonProfile)
        [postingToDict pythonDescPosting]).2 :=
  ⟨((filter_jobs_annotates_all (JobMatcher.init pythonProfile)
      [postingToDict pythonDescPosting]).2.1 _ (by simp)).1,
   (filter_jobs_annotates_all (JobMatcher.init pythonProfile)
      [postingToDict pythonDescPosting]).2.2.2 _ (by simp) (by decide)⟩

/-! ## Claim theorems (Extractor and persistence) -/

theorem bMatchAt_eq_nat (kw : List Char) (prev : Option Char) (t : List Char)
    (h1 : isWordOpt kw.head? = true) (h2 : isWordOpt kw.getLast? = true) :
    bMatchAt kw prev t = natMatchAt kw prev t := by
  unfold bMatchAt natMatchAt
  rw [h1, h2]
  cases isWordOpt prev <;> cases isWordOpt (t.drop kw.length).head? <;> simp

theorem bSearch_eq_nat (kw : List Char)
    (h1 : isWordOpt kw.head? = true) (h2 : isWordOpt kw.getLast? = true)
    (prev : Option Char) (t : List Char) :
    bSearch kw prev t = natSearch kw prev t := by
  induction t generalizing prev with
  | nil => simp [bSearch, natSearch, bMatchAt_eq_nat kw prev [] h1 h2]
  | cons c rest ih =>
    simp [bSearch, natSearch, bMatchAt_eq_nat kw prev (c :: rest) h1 h2, ih]

/-- C3: extraction is a total function of the document and source URL, and
on the view of the empty markup string every field takes its documented
fallback: `Unknown Title`, `Unknown`, `Remote`, `Not disclosed`, `None`,
no skills, empty description. -/
theorem extract_empty_markup_fallbacks (digest : String → String) (url : String) :
    (parse_job_detail_page digest emptyDoc url).title = "Unknown Title" ∧
    (parse_job_detail_page digest emptyDoc url).company = "Unknown" ∧
    (parse_job_detail_page digest emptyDoc url).location = "Remote" ∧
    (parse_job_detail_page digest emptyDoc url).stipend = "Not disclosed" ∧
    (parse_job_detail_page digest emptyDoc url).equity = "None" ∧
    (parse_job_detail_page digest emptyDoc url).skills = [] ∧
    (parse_job_detail_page digest emptyDoc url).full_description = "" ∧
    (parse_job_detail_page digest emptyDoc url).apply_url = url :=
  ⟨rfl, rfl, rfl, rfl, rfl, rfl, rfl, rfl⟩

/-- C2 fails as stated: on the empty markup document the description
container is absent, `short_description` stays at its initializer `""`, and
the unconditional-formula value would instead be `"..."`. -/
theorem short_description_suffix_counterexample :
    (parse_job_detail_page identityDigest emptyDoc
        "https://example.com/j").short_description ≠
      pyReplaceNlSpace (pyTake (parse_job_detail_page identityDigest emptyDoc
        "https://example.com/j").full_description 200) ++ "..." := by
  decide

/-- C2 amended: whenever the description container is present — including a
text shorter than 200 characters and the empty text — `short_description`
equals the first 200 characters of `full_description` with newlines replaced
by spaces plus the literal `"..."` suffix; when the container is absent both
descriptions are the empty string and no suffix is appended. -/
theorem short_description_formula (digest : String → String) (doc : Doc)
    (url : String) :
    (∀ t, doc.job_description_text = some t →
      (parse_job_detail_page digest doc url).full_description = t ∧
      (parse_job_detail_page digest doc url).short_description =
        pyReplaceNlSpace (pyTake t 200) ++ "...") ∧
    (doc.job_description_text = none →
      (parse_job_detail_page digest doc url).full_description = "" ∧
      (parse_job_detail_page digest doc url).short_description = "") := by
  constructor
  · intro t ht
    constructor <;> simp [parse_job_detail_page, ht]
  · intro ht
    constructor <;> simp [parse_job_detail_page, ht]

/-- Witness for the C2 amended theorem: a present two-character description
keeps the formula, yielding the dangling `"..."` suffix. -/
theorem short_description_formula_witness :
    (parse_job_detail_page identityDigest descDoc "u").short_description =
      pyReplaceNlSpace (pyTake "hi" 200) ++ "..." :=
  ((short_description_formula identityDigest descDoc "u").1 "hi" rfl).2

/-- C5 fails as stated: the vocabulary term `C++` occurs at word boundaries
in the text `c++` (spec-worded sense: not adjacent to any word character),
yet the regex `\bc\+\+\b` does not extract it, because its trailing `\b`
after the non-word `+` demands an immediately following word character. -/
theorem keyword_boundary_counterexample :
    ¬ (("C++" ∈ extract_keywords_from_text "c++") ↔
        occursAtWordBoundary "C++" "c++" = true) := by
  decide

/-- C5 amended: for every vocabulary term whose lowercased form begins and
ends with a word character — every term except `C++`, including `CI/CD`,
`Next.js` and `Node.js` — the term is extracted iff it occurs in the text
case-insensitively at word boundaries; for `C++` the trailing `\b` instead
requires an adjacent word character, so a standalone `C++` is never
extracted (and `Go` inside `Google` is still not extracted). -/
theorem keyword_word_boundary_iff :
    (∀ kw ∈ tech_keywords,
      isWordOpt (pyLower kw).data.head? = true →
      isWordOpt (pyLower kw).data.getLast? = true →
      ∀ text : String,
        (kw ∈ extract_keywords_from_text text ↔
          occursAtWordBoundary kw text = true)) ∧
    "C++" ∉ extract_keywords_from_text "we use c++ daily" ∧
    "Go" ∉ extract_keywords_from_text "Google announcement" := by
  refine ⟨?_, by decide, by decide⟩
  intro kw hmem h1 h2 text
  unfold extract_keywords_from_text occursAtWordBoundary
  rw [List.mem_filter]
  constructor
  · intro h
    rw [← bSearch_eq_nat _ h1 h2]
    exact h.2
  · intro h
    exact ⟨hmem, by rw [bSearch_eq_nat _ h1 h2]; exact h⟩

/-- Witness for the C5 amended theorem: `Go`, a word-edged term, is
extracted exactly when it occurs at word boundaries. -/
theorem keyword_word_boundary_iff_witness :
    "Go" ∈ extract_keywords_from_text "learn go today" :=
  (keyword_word_boundary_iff.1 "Go" (by decide) (by decide) (by decide)
    "learn go today").mpr (by decide)

theorem rowOfJob_postingToDict (p : Posting) :
    rowOfJob (postingToDict p) =
      { job_id := some p.id, title := some p.title, company := some p.company,
        location := some p.location, stipend := p.stipend, equity := p.equity,
        description := p.full_description,
        short_description := p.short_description, skills := p.skills,
        ui_skills := p.ui_skills, apply_url := some p.apply_url,
        match_score := p.match_score } := rfl

theorem save_two_same_id (p1 p2 : Posting) (hid : p1.id = p2.id) :
    save_jobs [] [postingToDict p1, postingToDict p2] =
      ([rowOfJob (postingToDict p1)], 1) := by
  have h1 : insertOk [] (rowOfJob (postingToDict p1)) = true := rfl
  have h2 : insertOk [rowOfJob (postingToDict p1)]
      (rowOfJob (postingToDict p2)) = false := by
    simp [insertOk, rowOfJob_postingToDict, hid]
  simp [save_jobs, List.foldl, h1, h2]

/-- C9: two postings extracted with equal titles and equal companies get the
same id — a 16-character prefix of the digest of the lowercased
`title + "_" + company`, independent of every other field including the
source URL — and saving both inserts exactly one row, the duplicate id being
silently skipped. -/
theorem job_id_dedup (digest : String → String) (doc1 doc2 : Doc)
    (u1 u2 : String)
    (ht : (parse_job_detail_page digest doc1 u1).title =
      (parse_job_detail_page digest doc2 u2).title)
    (hc : (parse_job_detail_page digest doc1 u1).company =
      (parse_job_detail_page digest doc2 u2).company) :
    (parse_job_detail_page digest doc1 u1).id =
      (parse_job_detail_page digest doc2 u2).id ∧
    (parse_job_detail_page digest doc1 u1).id =
      pyTake (digest (pyLower ((parse_job_detail_page digest doc1 u1).title ++
        "_" ++ (parse_job_detail_page digest doc1 u1).company))) 16 ∧
    (parse_job_detail_page digest doc1 u1).apply_url = u1 ∧
    (parse_job_detail_page digest doc2 u2).apply_url = u2 ∧
    save_jobs [] [postingToDict (parse_job_detail_page digest doc1 u1),
        postingToDict (parse_job_detail_page digest doc2 u2)] =
      ([rowOfJob (postingToDict (parse_job_detail_page digest doc1 u1))], 1) := by
  have hid : (parse_job_detail_page digest doc1 u1).id =
      (parse_job_detail_page digest doc2 u2).id := by
    show generate_job_id digest (parse_job_detail_page digest doc1 u1).title
      (parse_job_detail_page digest doc1 u1).company = _
    rw [ht, hc]
    rfl
  exact ⟨hid, rfl, rfl, rfl, save_two_same_id _ _ hid⟩

/-- Witness for the C9 theorem: two extractions of the same document under
different source URLs share one id and persist as a single row. -/
theorem job_id_dedup_witness :
    (parse_job_detail_page identityDigest emptyDoc "https://example.com/a").id =
      (parse_job_detail_page identityDigest emptyDoc "https://example.com/b").id ∧
    (save_jobs []
      [postingToDict
        (parse_job_detail_page identityDigest emptyDoc "https://example.com/a"),
       postingToDict
        (parse_job_detail_page identityDigest emptyDoc "https://example.com/b")]
      ).1.length = 1 :=
  ⟨(job_id_dedup identityDigest emptyDoc emptyDoc "https://example.com/a"
      "https://example.com/b" rfl rfl).1,
   by
    rw [(job_id_dedup identityDigest emptyDoc emptyDoc "https://example.com/a"
      "https://example.com/b" rfl rfl).2.2.2.2]
    rfl⟩
